import Mathlib

/-!
# beagle-search: the libbeagle example client

A shallow embedding of `libbeagle/examples/beagle-search.c`.  The program state
(the static `total_hits`, standard output, the query object, the signal handler
table, the requests handed to the daemon) is passed explicitly.  Standard output
is kept as the list of texts written, one entry per `g_print` call.
-/

namespace Beagle

/-! ## Machine integers and `g_print` formatting -/

/-- Value of a C `int` (`gint`) after storing `x`: two's complement on 32 bits. -/
def toGint (x : Int) : Int := (x + 2 ^ 31) % 2 ^ 32 - 2 ^ 31

/-- Value of a C `unsigned` (`guint`) after storing `n`. -/
def toGuint (n : Nat) : Nat := n % 2 ^ 32

/-- The `%s` conversion of `g_print`: a NULL pointer is written as `(null)`. -/
def fmt_s (s : Option String) : String := s.getD "(null)"

/-- The `%d` conversion of `g_print`. -/
def fmt_d (i : Int) : String := toString i

/-! ## Data model -/

/-- A `BeagleHit`: the fields read by the example through the accessor functions. -/
structure BeagleHit where
  uri : String
  type : String
  source_object_name : String
  properties : List (String × String)
deriving DecidableEq, Repr

/-- The two callbacks the program defines. -/
inductive Callback
  | hits_added_cb
  | finished_cb
deriving DecidableEq, Repr

/-- A notification of the daemon for the submitted query. -/
inductive Notification
  | HitsAdded (hits : List BeagleHit)
  | Finished
  | Cancelled
  | Error (cause : String)
  | ConnectionLost
deriving DecidableEq, Repr

/-- State of the query session on the client side. -/
inductive Session
  | Pending
  | Streaming
  | Finished
  | Cancelled
  | Errored
deriving DecidableEq, Repr

/-- Library calls made by the program, in program order. -/
inductive Call
  | g_type_init
  | beagle_client_new
  | g_main_loop_new
  | beagle_query_new
  | beagle_query_add_text (text : String)
  | g_signal_connect (signal : String) (cb : Callback)
  | beagle_client_send_request_async (texts : List String)
  | g_main_loop_run
  | g_main_loop_quit
  | g_object_unref_query
  | g_object_unref_client
  | g_main_loop_unref
deriving DecidableEq, Repr

/-- The program state. -/
structure State where
  /-- the static `int total_hits` -/
  total_hits : Int
  /-- standard output: the texts written, one per `g_print` call -/
  out : List String
  /-- text terms of the `BeagleQuery` object, in the order added -/
  query : List String
  /-- signal handlers connected to the query: signal name and callback -/
  handlers : List (String × Callback)
  /-- requests handed to the daemon: the text terms each one carried -/
  requests : List (List String)
  /-- the session of the request in flight, if one was sent -/
  session : Option Session
  /-- frames that were dropped because no live session took them -/
  discarded : Nat
  /-- `is_running` flag of the `GMainLoop` -/
  is_running : Bool
  /-- library calls made so far -/
  calls : List Call
  /-- callbacks run so far, each with the notification that triggered it -/
  fired : List (Callback × Notification)
deriving DecidableEq, Repr

/-- State of the process when `main` is entered (statics are zero-initialised). -/
def State.init : State :=
  { total_hits := 0, out := [], query := [], handlers := [], requests := [],
    session := none, discarded := 0, is_running := false, calls := [], fired := [] }

/-- How a run of `main` ends. -/
inductive Outcome
  /-- the process left through `exit (status)` -/
  | exited (status : Int) (st : State)
  /-- `main` returned `status` -/
  | returned (status : Int) (st : State)
  /-- `g_main_loop_run` waits for ever: nothing quits the loop -/
  | blocked (st : State)
deriving DecidableEq, Repr

/-! ## Library functions -/

/-- The `g_print` of GLib: writes the formatted text to standard output. -/
def g_print (text : String) (st : State) : State :=
  { st with out := st.out ++ [text] }

/-- Modelled from the spec: `beagle_hit_get_property` of libbeagle is missing; a hit
carries "an ordered mapping from property name to one or more string values", and
the accessor gives the first value stored under the name, NULL when there is none. -/
def beagle_hit_get_property (hit : BeagleHit) (name : String) : Option String :=
  (hit.properties.find? (fun p => p.1 == name)).map Prod.snd

/-- Accessor `beagle_hit_get_uri`. -/
def beagle_hit_get_uri (hit : BeagleHit) : String := hit.uri

/-- Accessor `beagle_hit_get_type`. -/
def beagle_hit_get_type (hit : BeagleHit) : String := hit.type

/-- Accessor `beagle_hit_get_source_object_name`. -/
def beagle_hit_get_source_object_name (hit : BeagleHit) : String := hit.source_object_name

/-- The `g_slist_length` of GLib: the number of elements, as a `guint`. -/
def g_slist_length (l : List BeagleHit) : Nat := toGuint l.length

/-- Accessor `beagle_hits_added_response_get_hits`: the hit list of a hits-added
response. -/
def beagle_hits_added_response_get_hits : Notification → List BeagleHit
  | .HitsAdded hits => hits
  | _ => []

/-- The `g_main_loop_quit` of GLib: clears the `is_running` flag of the loop. -/
def g_main_loop_quit (st : State) : State :=
  { st with is_running := false, calls := st.calls ++ [Call.g_main_loop_quit] }

/-! ## The program -/

/-- Source: `print_feed_item_hit`. -/
def print_feed_item_hit (hit : BeagleHit) (st : State) : State :=
  let text := beagle_hit_get_property hit "dc:title"
  g_print ("Blog: " ++ fmt_s text ++ "\n") st

/-- Source: `print_file_hit`. -/
def print_file_hit (hit : BeagleHit) (st : State) : State :=
  g_print ("File: " ++ fmt_s (some (beagle_hit_get_uri hit)) ++ "\n") st

/-- Source: `print_other_hit`. -/
def print_other_hit (hit : BeagleHit) (st : State) : State :=
  g_print (fmt_s (some (beagle_hit_get_uri hit)) ++ " (" ++
    fmt_s (some (beagle_hit_get_source_object_name hit)) ++ ")") st

/-- Source: `print_hit`; `strcmp (a, b) == 0` is equality of the two strings. -/
def print_hit (hit : BeagleHit) (st : State) : State :=
  if beagle_hit_get_type hit = "FeedItem" then
    print_feed_item_hit hit st
  else if beagle_hit_get_type hit = "File" then
    print_file_hit hit st
  else
    print_other_hit hit st

/-- Source: the `for (l = hits, i = 1; l; l = l->next, ++i)` loop of
`hits_added_cb`; `i` is a `gint`. -/
def hits_added_loop : List BeagleHit → Int → State → State
  | [], _, st => st
  | hit :: l, i, st =>
    let st := g_print ("[" ++ fmt_d i ++ "] ") st
    let st := print_hit hit st
    let st := g_print "\n" st
    hits_added_loop l (toGint (i + 1)) st

/-- Source: `hits_added_cb`. -/
def hits_added_cb (response : Notification) (st : State) : State :=
  let hits := beagle_hits_added_response_get_hits response
  let nr_hits : Int := toGint (g_slist_length hits)
  let st := { st with total_hits := toGint (st.total_hits + nr_hits) }
  let st := g_print ("Found hits (" ++ fmt_d nr_hits ++ "):\n") st
  let st := g_print "-------------------------------------------\n" st
  let st := hits_added_loop hits 1 st
  g_print "-------------------------------------------\n\n\n" st

/-- Source: `finished_cb`. -/
def finished_cb (st : State) : State :=
  g_main_loop_quit st

/-! ## Signal delivery and the main loop -/

/-- Runs one connected callback for a notification, recording the run. -/
def invoke (cb : Callback) (e : Notification) (st : State) : State :=
  let st := { st with fired := st.fired ++ [(cb, e)] }
  match cb with
  | .hits_added_cb => hits_added_cb e st
  | .finished_cb => finished_cb st

/-- Signal emission of GObject: every handler connected under the signal name
runs, in the order the handlers were connected. -/
def emit_handlers (signal : String) (e : Notification) :
    List (String × Callback) → State → State
  | [], st => st
  | (name, cb) :: hs, st =>
    if name = signal then emit_handlers signal e hs (invoke cb e st)
    else emit_handlers signal e hs st

/-- Emission of `signal` on the query object. -/
def g_signal_emit (signal : String) (e : Notification) (st : State) : State :=
  emit_handlers signal e st.handlers st

/-- Whether a session state is terminal. -/
def Session.terminal : Session → Bool
  | .Pending => false
  | .Streaming => false
  | .Finished => true
  | .Cancelled => true
  | .Errored => true

/-- Whether a notification ends the query. -/
def Notification.terminal : Notification → Bool
  | .HitsAdded _ => false
  | .Finished => true
  | .Cancelled => true
  | .Error _ => true
  | .ConnectionLost => true

/-- Modelled from the spec: `broadcastFault` of the Session Registry (section 4.3)
is missing.  It "transitions every currently-registered session to Errored(cause)",
running the error callback of the session; a session that is absent or already
terminal is not registered and is left alone. -/
def broadcastFault (st : State) : State :=
  match st.session with
  | none => st
  | some s =>
    if s.terminal then st
    else g_signal_emit "error" .ConnectionLost { st with session := some .Errored }

/-- Modelled from the spec: the response routing of libbeagle is missing (Session
Registry `routeFrame` and the Query Session state machine, sections 4.3 and 4.4).
A frame for a session that is absent or terminal is discarded and counted.
`Pending|Streaming --HitsAdded--> Streaming` runs the hits callback,
`--Finished--> Finished` runs the completion callback, `--Error--> Errored` runs
the error callback, and `Cancelled` stops delivery.  The signal names of the first
two are those the program connects to.  A lost connection is not a frame of one
session: it is broadcast as a fault. -/
def routeFrame (e : Notification) (st : State) : State :=
  match e with
  | .ConnectionLost => broadcastFault st
  | .HitsAdded hits =>
    match st.session with
    | none => { st with discarded := st.discarded + 1 }
    | some s =>
      if s.terminal then { st with discarded := st.discarded + 1 }
      else g_signal_emit "hits-added" (.HitsAdded hits) { st with session := some .Streaming }
  | .Finished =>
    match st.session with
    | none => { st with discarded := st.discarded + 1 }
    | some s =>
      if s.terminal then { st with discarded := st.discarded + 1 }
      else g_signal_emit "finished" .Finished { st with session := some .Finished }
  | .Cancelled =>
    match st.session with
    | none => { st with discarded := st.discarded + 1 }
    | some s =>
      if s.terminal then { st with discarded := st.discarded + 1 }
      else { st with session := some .Cancelled }
  | .Error cause =>
    match st.session with
    | none => { st with discarded := st.discarded + 1 }
    | some s =>
      if s.terminal then { st with discarded := st.discarded + 1 }
      else g_signal_emit "error" (.Error cause) { st with session := some .Errored }

/-- Modelled from the spec: one iteration of the Dispatcher (section 4.5), given
the notifications that are ready in this iteration, in order of arrival.  "On
frame: route via Session Registry.  On fatal transport error: call
`broadcastFault` then exit the loop": a lost connection clears `is_running`, and
nothing can be read after it. -/
def dispatch : List Notification → State → State
  | [], st => st
  | .ConnectionLost :: _, st => { broadcastFault st with is_running := false }
  | .HitsAdded hits :: es, st => dispatch es (routeFrame (.HitsAdded hits) st)
  | .Finished :: es, st => dispatch es (routeFrame .Finished st)
  | .Cancelled :: es, st => dispatch es (routeFrame .Cancelled st)
  | .Error cause :: es, st => dispatch es (routeFrame (.Error cause) st)

/-- The iterations of `g_main_loop_run` (`while (loop->is_running) iterate`).
`daemon` lists, per iteration, the notifications that are ready in it; one
iteration dispatches all of them, and `is_running` is tested between iterations
only.  When nothing more arrives and the loop is still running, the loop waits for
ever. -/
def main_loop_iterate : List (List Notification) → State → Outcome
  | [], st => .blocked st
  | ready :: later, st =>
    let st := dispatch ready st
    if st.is_running then main_loop_iterate later st else .returned 0 st

/-- The `g_main_loop_run` of GLib: sets `is_running` and iterates until the flag
is cleared.  The result is `returned` when the loop was left. -/
def g_main_loop_run (daemon : List (List Notification)) (st : State) : Outcome :=
  main_loop_iterate daemon
    { st with is_running := true, calls := st.calls ++ [Call.g_main_loop_run] }

/-- Records a library call that has no other effect on the modelled state. -/
def call (c : Call) (st : State) : State :=
  { st with calls := st.calls ++ [c] }

/-- The `beagle_query_add_text` of libbeagle: appends a text term to the query. -/
def beagle_query_add_text (text : String) (st : State) : State :=
  { st with query := st.query ++ [text],
            calls := st.calls ++ [Call.beagle_query_add_text text] }

/-- The `g_signal_connect` of GObject: appends a handler to the handler table. -/
def g_signal_connect (signal : String) (cb : Callback) (st : State) : State :=
  { st with handlers := st.handlers ++ [(signal, cb)],
            calls := st.calls ++ [Call.g_signal_connect signal cb] }

/-- Modelled from the spec: `beagle_client_send_request_async` of libbeagle is
missing; the request is serialised and sent with the query's terms as they are at
this moment, and a session in state `Pending` is opened for it. -/
def beagle_client_send_request_async (st : State) : State :=
  { st with requests := st.requests ++ [st.query],
            session := some .Pending,
            calls := st.calls ++ [Call.beagle_client_send_request_async st.query] }

/-- The element `argv[i]`; `argv[argc]` is the NULL pointer. -/
def argv_at (argv : List String) (i : Nat) : Option String := argv.get? i

/-- Source: the `for (i = 1; i < argc; ++i)` loop of `main`, with `n` iterations
left to run.  Inside the loop `i < argc`, so `argv[i]` is a string; the NULL case
is there to make the function total. -/
def main_add_loop (argv : List String) : Nat → Nat → State → State
  | 0, _, st => st
  | n + 1, i, st =>
    match argv_at argv i with
    | some text => main_add_loop argv n (i + 1) (beagle_query_add_text text st)
    | none => main_add_loop argv n (i + 1) st

/-- Source: `main`; `argc` is the length of `argv`, and `daemon` is what the daemon
sends for the request, grouped by the iteration of the main loop that reads it. -/
def main (argv : List String) (daemon : List (List Notification)) : Outcome :=
  let argc := argv.length
  let st := State.init
  if argc < 2 then
    let st := g_print ("Usage " ++ fmt_s (argv_at argv 0) ++ " \"query string\"\n") st
    .exited 1 st
  else
    let st := call .g_type_init st
    let st := { st with total_hits := 0 }
    let st := call .beagle_client_new st
    let st := call .g_main_loop_new st
    let st := call .beagle_query_new st
    let st := main_add_loop argv (argc - 1) 1 st
    let st := g_signal_connect "hits-added" .hits_added_cb st
    let st := g_signal_connect "finished" .finished_cb st
    let st := beagle_client_send_request_async st
    match g_main_loop_run daemon st with
    | .returned _ st =>
      let st := call .g_object_unref_query st
      let st := call .g_object_unref_client st
      let st := call .g_main_loop_unref st
      let st := g_print ("Found a total of " ++ fmt_d st.total_hits ++ " hits\n") st
      .returned 0 st
    | o => o

/-- The final state of a run. -/
def Outcome.state : Outcome → State
  | .exited _ st => st
  | .returned _ st => st
  | .blocked st => st

/-! ## Texts written, stated separately from the program -/

/-- The handler table `main` builds. -/
def main_handlers : List (String × Callback) :=
  [("hits-added", .hits_added_cb), ("finished", .finished_cb)]

/-- The text written for one hit, by type tag. -/
def hit_text (hit : BeagleHit) : String :=
  if hit.type = "FeedItem" then
    "Blog: " ++ fmt_s (beagle_hit_get_property hit "dc:title") ++ "\n"
  else if hit.type = "File" then
    "File: " ++ hit.uri ++ "\n"
  else
    hit.uri ++ " (" ++ hit.source_object_name ++ ")"

/-- The three texts of the entry numbered `k`. -/
def entry_text (k : Nat) (hit : BeagleHit) : List String :=
  ["[" ++ toString k ++ "] ", hit_text hit, "\n"]

/-- The entries of a batch: one per hit, in list order, numbered from `k`. -/
def entries_from : Nat → List BeagleHit → List String
  | _, [] => []
  | k, hit :: l => entry_text k hit ++ entries_from (k + 1) l

/-- Everything written for one batch of hits. -/
def batch_text (hits : List BeagleHit) : List String :=
  ["Found hits (" ++ toString hits.length ++ "):\n",
   "-------------------------------------------\n"] ++
  entries_from 1 hits ++
  ["-------------------------------------------\n\n\n"]

/-- Sum of the batch sizes. -/
def batch_sum : List (List BeagleHit) → Nat
  | [] => 0
  | b :: bs => b.length + batch_sum bs

/-- Everything written for a sequence of batches. -/
def batches_text : List (List BeagleHit) → List String
  | [] => []
  | b :: bs => batch_text b ++ batches_text bs

/-- The callback runs for a sequence of batches: one run of `hits_added_cb` each. -/
def batches_fired (bs : List (List BeagleHit)) : List (Callback × Notification) :=
  bs.map (fun b => (Callback.hits_added_cb, Notification.HitsAdded b))

/-- The closing line of `main`. -/
def total_line (n : Int) : String := "Found a total of " ++ fmt_d n ++ " hits\n"

/-- Texts of the loop of `hits_added_cb` started with counter `i`. -/
def loop_text : List BeagleHit → Int → List String
  | [], _ => []
  | hit :: l, i => ["[" ++ fmt_d i ++ "] ", hit_text hit, "\n"] ++ loop_text l (toGint (i + 1))

/-- The library calls of `main` up to and including the sending of the request. -/
def setup_calls (terms : List String) : List Call :=
  [Call.g_type_init, Call.beagle_client_new, Call.g_main_loop_new, Call.beagle_query_new] ++
  terms.map Call.beagle_query_add_text ++
  [Call.g_signal_connect "hits-added" .hits_added_cb,
   Call.g_signal_connect "finished" .finished_cb,
   Call.beagle_client_send_request_async terms]

/-- The library calls of `main` after the main loop was left. -/
def teardown_calls : List Call :=
  [Call.g_object_unref_query, Call.g_object_unref_client, Call.g_main_loop_unref]

/-- The state of `main` right before `g_main_loop_run`, for a query with `terms`. -/
def prepared (terms : List String) : State :=
  { total_hits := 0, out := [], query := terms, handlers := main_handlers,
    requests := [terms], session := some .Pending, discarded := 0, is_running := false,
    calls := setup_calls terms, fired := [] }

/-- The state in which the main loop starts to iterate, for a query with `terms`. -/
def started (terms : List String) : State :=
  { total_hits := 0, out := [], query := terms, handlers := main_handlers,
    requests := [terms], session := some .Pending, discarded := 0, is_running := true,
    calls := setup_calls terms ++ [Call.g_main_loop_run], fired := [] }

/-- The part of `main` after `g_main_loop_run`. -/
def finish : Outcome → Outcome
  | .returned _ st =>
    .returned 0 { st with calls := st.calls ++ teardown_calls,
                          out := st.out ++ [total_line st.total_hits] }
  | o => o

/-- The main loop runs with the handlers of `main` and the query is open. -/
def Live (st : State) : Prop :=
  st.handlers = main_handlers ∧ st.is_running = true ∧
    (st.session = some .Pending ∨ st.session = some .Streaming)

/-- The main loop runs and the query has ended without quitting the loop. -/
def Dead (st : State) : Prop :=
  st.is_running = true ∧
    (st.session = some .Cancelled ∨ st.session = some .Errored)

instance (st : State) : Decidable (Live st) := by
  unfold Live
  infer_instance

instance (st : State) : Decidable (Dead st) := by
  unfold Dead
  infer_instance

/-- While `main` is in the main loop, seen from the state `base` in which the loop
started: the handlers, the query and the requests are those of `base`, and either
no further library call was made and the session is not yet finished, or the one
call of `g_main_loop_quit` was made, the session is finished and the loop flag is
cleared. -/
def Quiet (base st : State) : Prop :=
  st.handlers = main_handlers ∧ st.query = base.query ∧ st.requests = base.requests ∧
    ((st.calls = base.calls ∧ st.session ≠ none ∧ st.session ≠ some .Finished) ∨
     (st.calls = base.calls ++ [Call.g_main_loop_quit] ∧ st.session = some .Finished ∧
      st.is_running = false))

instance (base st : State) : Decidable (Quiet base st) := by
  unfold Quiet
  infer_instance

/-- Number of runs of callback `cb` in a record of callback runs. -/
def runs_of (cb : Callback) (fired : List (Callback × Notification)) : Nat :=
  (fired.filter (fun p => p.1 = cb)).length

/-- A hit of type `File`. -/
def sample_file_hit : BeagleHit :=
  { uri := "file:///home/u/notes.txt", type := "File", source_object_name := "Files",
    properties := [] }

/-- A hit of type `FeedItem` with a title. -/
def sample_feed_hit : BeagleHit :=
  { uri := "feed:1", type := "FeedItem", source_object_name := "Blam",
    properties := [("dc:title", "Hello")] }

/-- A hit whose type is spelled `file`, in lower case. -/
def sample_other_hit : BeagleHit :=
  { uri := "mailto:a", type := "file", source_object_name := "Mail", properties := [] }

/-- Sum of the sizes of the hit batches among the notifications. -/
def hits_sum : List Notification → Nat
  | [] => 0
  | .HitsAdded hits :: es => hits.length + hits_sum es
  | _ :: es => hits_sum es

/-! ## The session registry -/

/-- Modelled from the spec: the Session Registry of libbeagle is missing (section
4.3).  It maps the correlation id of each open request to its session; an id is a
"monotonically increasing integer", so the registry keeps the next id to hand out.
Only non-terminal sessions are kept: an entry is removed at its terminal
transition or at cancellation. -/
structure Registry where
  /-- the next correlation id to allocate -/
  next_id : Nat
  /-- the open sessions, by correlation id -/
  sessions : List (Nat × Session)
  /-- frames dropped because their correlation id was not registered -/
  discarded : Nat
deriving DecidableEq, Repr

/-- The registry of a client that has sent nothing yet. -/
def Registry.empty : Registry := { next_id := 0, sessions := [], discarded := 0 }

/-- The correlation ids of the open sessions. -/
def Registry.ids (r : Registry) : List Nat := r.sessions.map Prod.fst

/-- Modelled from the spec: `register(session) -> CorrelationId` "allocates a fresh
id, inserts, returns it"; the new session is `Pending`. -/
def Registry.register (r : Registry) : Nat × Registry :=
  (r.next_id,
   { r with next_id := r.next_id + 1,
            sessions := r.sessions ++ [(r.next_id, Session.Pending)] })

/-- Modelled from the spec: `cancel(CorrelationId)`: a registered session goes to
`Cancelled` and is removed; an unknown id is left alone. -/
def Registry.cancel (id : Nat) (r : Registry) : Registry :=
  { r with sessions := r.sessions.filter (fun p => p.1 != id) }

/-- Modelled from the spec: `routeFrame(ResponseFrame)`: an unknown id is discarded
and counted; a hits frame moves the session to `Streaming`; a terminal frame ends
the session and removes it. -/
def Registry.routeFrame (id : Nat) (e : Notification) (r : Registry) : Registry :=
  if r.ids.contains id then
    if e.terminal then
      { r with sessions := r.sessions.filter (fun p => p.1 != id) }
    else
      { r with sessions :=
          r.sessions.map (fun p => if p.1 = id then (p.1, Session.Streaming) else p) }
  else
    { r with discarded := r.discarded + 1 }

/-- Modelled from the spec: `broadcastFault(cause)`: every registered session goes
to `Errored` and the registry is cleared. -/
def Registry.broadcastFault (r : Registry) : Registry :=
  { r with sessions := [] }

/-- An operation on the registry. -/
inductive RegistryOp
  | register
  | cancel (id : Nat)
  | routeFrame (id : Nat) (e : Notification)
  | broadcastFault
deriving DecidableEq, Repr

/-- Runs a sequence of operations; the result holds the ids that the `register`
operations returned, in order, and the registry reached. -/
def Registry.run : List RegistryOp → List Nat × Registry → List Nat × Registry
  | [], acc => acc
  | .register :: ops, (ids, r) =>
    Registry.run ops (ids ++ [r.register.1], r.register.2)
  | .cancel id :: ops, (ids, r) => Registry.run ops (ids, r.cancel id)
  | .routeFrame id e :: ops, (ids, r) => Registry.run ops (ids, r.routeFrame id e)
  | .broadcastFault :: ops, (ids, r) => Registry.run ops (ids, r.broadcastFault)

/-- Every id handed out or registered so far is below the next id, and the ids
handed out are pairwise different. -/
def Registry.Fresh (acc : List Nat × Registry) : Prop :=
  (∀ id ∈ acc.1, id < acc.2.next_id) ∧ (∀ id ∈ acc.2.ids, id < acc.2.next_id) ∧
    acc.1.Nodup ∧ acc.2.ids.Nodup

instance (acc : List Nat × Registry) : Decidable (Registry.Fresh acc) := by
  unfold Registry.Fresh
  infer_instance

/-! ## Lemmas: integers -/

theorem toGint_of_range (x : Int) (h0 : -(2 ^ 31) ≤ x) (h1 : x < 2 ^ 31) : toGint x = x := by
  unfold toGint
  rw [Int.emod_eq_of_lt (by omega) (by omega)]
  omega

theorem toGint_nat (n : Nat) (h : n < 2 ^ 31) : toGint (n : Int) = n :=
  toGint_of_range _ (by omega) (by omega)

theorem toGuint_of_lt (n : Nat) (h : n < 2 ^ 31) : toGuint n = n := by
  unfold toGuint
  exact Nat.mod_eq_of_lt (by omega)

theorem fmt_d_nat (n : Nat) : fmt_d (n : Int) = toString n := rfl

/-! ## Lemmas: the printers only append to standard output -/

theorem print_hit_eq (hit : BeagleHit) (st : State) :
    print_hit hit st = { st with out := st.out ++ [hit_text hit] } := by
  unfold print_hit hit_text beagle_hit_get_type
  split_ifs <;>
    simp [print_feed_item_hit, print_file_hit, print_other_hit, g_print, fmt_s,
      beagle_hit_get_uri, beagle_hit_get_source_object_name]

theorem hits_added_loop_eq (l : List BeagleHit) :
    ∀ (i : Int) (st : State),
      hits_added_loop l i st = { st with out := st.out ++ loop_text l i } := by
  induction l with
  | nil => intro i st; simp [hits_added_loop, loop_text]
  | cons hit l ih =>
    intro i st
    simp [hits_added_loop, loop_text, ih, print_hit_eq, g_print]

theorem loop_text_eq (l : List BeagleHit) :
    ∀ (i : Int) (k : Nat), (l ≠ [] → i = k) → k + l.length ≤ 2 ^ 31 →
      loop_text l i = entries_from k l := by
  induction l with
  | nil => intro i k _ _; rfl
  | cons hit l ih =>
    intro i k hi hk
    have hik : i = k := hi (by simp)
    subst hik
    simp only [List.length_cons] at hk
    have hrec : loop_text l (toGint ((k : Int) + 1)) = entries_from (k + 1) l := by
      apply ih
      · intro hne
        have hl : 0 < l.length := List.length_pos.mpr hne
        have := toGint_nat (k + 1) (by omega)
        simpa using this
      · omega
    simp [loop_text, entries_from, entry_text, hrec, fmt_d_nat]

theorem hits_added_cb_eq (hits : List BeagleHit) (st : State) :
    hits_added_cb (.HitsAdded hits) st =
      { st with
        total_hits := toGint (st.total_hits + toGint (toGuint hits.length)),
        out := st.out ++
          (["Found hits (" ++ fmt_d (toGint (toGuint hits.length)) ++ "):\n",
            "-------------------------------------------\n"] ++ loop_text hits 1 ++
           ["-------------------------------------------\n\n\n"]) } := by
  simp [hits_added_cb, beagle_hits_added_response_get_hits, g_slist_length,
    hits_added_loop_eq, g_print]

theorem hits_added_cb_small (hits : List BeagleHit) (st : State)
    (h : hits.length < 2 ^ 31) :
    hits_added_cb (.HitsAdded hits) st =
      { st with
        total_hits := toGint (st.total_hits + hits.length),
        out := st.out ++ batch_text hits } := by
  rw [hits_added_cb_eq, toGuint_of_lt _ h, toGint_nat _ h,
    loop_text_eq hits 1 1 (by intro _; rfl) (by omega)]
  simp [batch_text, fmt_d_nat]

/-! ## Lemmas: routing of one notification -/

theorem routeFrame_hits (hits : List BeagleHit) (st : State) (h : Live st) :
    routeFrame (.HitsAdded hits) st =
      hits_added_cb (.HitsAdded hits)
        { st with session := some .Streaming,
                  fired := st.fired ++ [(.hits_added_cb, .HitsAdded hits)] } := by
  obtain ⟨hh, -, hs | hs⟩ := h <;>
    simp [routeFrame, hs, Session.terminal, g_signal_emit, hh, main_handlers,
      emit_handlers, invoke]

theorem routeFrame_finished (st : State) (h : Live st) :
    routeFrame .Finished st =
      { st with session := some .Finished,
                fired := st.fired ++ [(.finished_cb, .Finished)],
                is_running := false,
                calls := st.calls ++ [Call.g_main_loop_quit] } := by
  obtain ⟨hh, -, hs | hs⟩ := h <;>
    simp [routeFrame, hs, Session.terminal, g_signal_emit, hh, main_handlers,
      emit_handlers, invoke, finished_cb, g_main_loop_quit]

theorem routeFrame_other (e : Notification) (st : State) (h : Live st)
    (he : e.terminal = true) (hf : e ≠ .Finished) :
    Dead (routeFrame e st) ∧ (routeFrame e st).total_hits = st.total_hits ∧
      (routeFrame e st).fired = st.fired ∧ (routeFrame e st).out = st.out ∧
      (routeFrame e st).query = st.query ∧ (routeFrame e st).requests = st.requests ∧
      (routeFrame e st).calls = st.calls ∧ (routeFrame e st).discarded = st.discarded := by
  obtain ⟨hh, hr, hs | hs⟩ := h <;> cases e <;>
    simp_all [routeFrame, broadcastFault, Session.terminal, g_signal_emit, main_handlers,
      emit_handlers, Notification.terminal, Dead]

theorem routeFrame_hits_finished (hits : List BeagleHit) (st : State)
    (h : st.session = some .Finished) :
    routeFrame (.HitsAdded hits) st = { st with discarded := st.discarded + 1 } := by
  simp [routeFrame, h, Session.terminal]

theorem routeFrame_hits_fields (hits : List BeagleHit) (st : State) (h : Live st) :
    Live (routeFrame (.HitsAdded hits) st) ∧
    (routeFrame (.HitsAdded hits) st).fired =
      st.fired ++ [(.hits_added_cb, .HitsAdded hits)] ∧
    (routeFrame (.HitsAdded hits) st).calls = st.calls ∧
    (routeFrame (.HitsAdded hits) st).discarded = st.discarded ∧
    (hits.length < 2 ^ 31 →
      (routeFrame (.HitsAdded hits) st).total_hits = toGint (st.total_hits + hits.length) ∧
      (routeFrame (.HitsAdded hits) st).out = st.out ++ batch_text hits) := by
  refine ⟨?_, ?_, ?_, ?_, ?_⟩
  · rw [routeFrame_hits _ _ h, hits_added_cb_eq]
    exact ⟨h.1, h.2.1, Or.inr rfl⟩
  · rw [routeFrame_hits _ _ h, hits_added_cb_eq]
  · rw [routeFrame_hits _ _ h, hits_added_cb_eq]
  · rw [routeFrame_hits _ _ h, hits_added_cb_eq]
  · intro hl
    rw [routeFrame_hits _ _ h, hits_added_cb_small _ _ hl]
    exact ⟨rfl, rfl⟩

/-! ## Lemmas: one iteration of the dispatcher -/

theorem dispatch_hits_append (bs : List (List BeagleHit)) (rest : List Notification) :
    ∀ st : State,
      dispatch (bs.map .HitsAdded ++ rest) st = dispatch rest (dispatch (bs.map .HitsAdded) st) := by
  induction bs with
  | nil => intro st; rfl
  | cons b bs ih =>
    intro st
    simp only [List.map_cons, List.cons_append, dispatch]
    exact ih _

theorem dispatch_hits (bs : List (List BeagleHit)) :
    ∀ st : State, Live st →
      Live (dispatch (bs.map .HitsAdded) st) ∧
      (dispatch (bs.map .HitsAdded) st).fired = st.fired ++ batches_fired bs ∧
      (dispatch (bs.map .HitsAdded) st).calls = st.calls ∧
      (dispatch (bs.map .HitsAdded) st).discarded = st.discarded ∧
      (0 ≤ st.total_hits → st.total_hits + batch_sum bs < 2 ^ 31 →
        (dispatch (bs.map .HitsAdded) st).total_hits = st.total_hits + batch_sum bs ∧
        (dispatch (bs.map .HitsAdded) st).out = st.out ++ batches_text bs) := by
  induction bs with
  | nil =>
    intro st h
    refine ⟨h, ?_, rfl, rfl, ?_⟩
    · simp [dispatch, batches_fired]
    · intro _ _
      simp [dispatch, batch_sum, batches_text]
  | cons b bs ih =>
    intro st h
    obtain ⟨hl, hf, hc, hd, ht⟩ := routeFrame_hits_fields b st h
    obtain ⟨hl', hf', hc', hd', ht'⟩ := ih _ hl
    simp only [List.map_cons, dispatch]
    refine ⟨hl', ?_, ?_, ?_, ?_⟩
    · rw [hf', hf]
      simp [batches_fired]
    · rw [hc', hc]
    · rw [hd', hd]
    · intro h0 hb
      simp only [batch_sum] at hb
      obtain ⟨ht1, ho1⟩ := ht (by omega)
      have ht2 : (routeFrame (.HitsAdded b) st).total_hits = st.total_hits + b.length := by
        rw [ht1]
        exact toGint_of_range _ (by omega) (by omega)
      obtain ⟨ht3, ho3⟩ := ht' (by omega) (by rw [ht2]; omega)
      refine ⟨?_, ?_⟩
      · rw [ht3, ht2]
        simp only [batch_sum]
        push_cast
        omega
      · rw [ho3, ho1]
        simp [batches_text]

theorem dispatch_stray (extra : List (List BeagleHit)) :
    ∀ st : State, st.session = some .Finished →
      dispatch (extra.map .HitsAdded) st =
        { st with discarded := st.discarded + extra.length } := by
  induction extra with
  | nil => intro st _; rfl
  | cons b bs ih =>
    intro st h
    simp only [List.map_cons, dispatch]
    rw [routeFrame_hits_finished b st h, ih { st with discarded := st.discarded + 1 } h]
    simp only [List.length_cons, State.mk.injEq, true_and, and_true]
    omega

theorem dispatch_finished (extra : List (List BeagleHit)) (st : State) (h : Live st) :
    dispatch (.Finished :: extra.map .HitsAdded) st =
      { st with session := some .Finished,
                fired := st.fired ++ [(.finished_cb, .Finished)],
                is_running := false,
                calls := st.calls ++ [Call.g_main_loop_quit],
                discarded := st.discarded + extra.length } := by
  simp only [dispatch]
  rw [routeFrame_finished st h, dispatch_stray extra _ rfl]

theorem main_add_loop_eq (argv : List String) :
    ∀ (n i : Nat) (st : State), i + n = argv.length →
      main_add_loop argv n i st =
        { st with query := st.query ++ argv.drop i,
                  calls := st.calls ++ (argv.drop i).map Call.beagle_query_add_text } := by
  intro n
  induction n with
  | zero =>
    intro i st h
    have : argv.drop i = [] := List.drop_eq_nil_of_le (by omega)
    simp [main_add_loop, this]
  | succ n ih =>
    intro i st h
    have hi : i < argv.length := by omega
    have hd : argv.drop i = argv[i] :: argv.drop (i + 1) := List.drop_eq_getElem_cons hi
    have hg : argv_at argv i = some argv[i] := by
      simp [argv_at, List.get?_eq_getElem?, List.getElem?_eq_getElem hi]
    rw [main_add_loop, hg]
    simp only []
    rw [ih (i + 1) _ (by omega), hd]
    simp only [beagle_query_add_text, List.map_cons, List.append_assoc, List.singleton_append]

theorem main_eq (argv : List String) (daemon : List (List Notification))
    (h : 2 ≤ argv.length) :
    main argv daemon = finish (main_loop_iterate daemon (started argv.tail)) := by
  have hlt : ¬ argv.length < 2 := by omega
  have hloop := main_add_loop_eq argv (argv.length - 1) 1
  have hs : ∀ st : State,
      (match main_loop_iterate daemon st with
        | .returned _ st =>
          Outcome.returned 0
            (g_print ("Found a total of " ++ fmt_d st.total_hits ++ " hits\n")
              { st with calls := ((st.calls ++ [Call.g_object_unref_query]) ++
                  [Call.g_object_unref_client]) ++ [Call.g_main_loop_unref] })
        | o => o) = finish (main_loop_iterate daemon st) := by
    intro st
    cases main_loop_iterate daemon st <;>
      simp [finish, g_print, teardown_calls, total_line]
  simp only [main, if_neg hlt, g_main_loop_run, g_signal_connect,
    beagle_client_send_request_async, call]
  rw [hloop _ (by omega), hs]
  congr 2
  simp [started, setup_calls, main_handlers, State.init]

theorem main_short (argv : List String) (daemon : List (List Notification))
    (h : argv.length < 2) :
    main argv daemon =
      .exited 1 { State.init with
        out := ["Usage " ++ fmt_s argv.head? ++ " \"query string\"\n"] } := by
  have h0 : argv_at argv 0 = argv.head? := by cases argv <;> rfl
  simp [main, h, g_print, State.init, h0]

/-! ## Lemmas: the main loop -/

theorem batch_sum_bound (bs : List (List BeagleHit)) (n : Nat) (h : batch_sum bs < n) :
    ∀ b ∈ bs, b.length < n := by
  induction bs with
  | nil => intro b hb; cases hb
  | cons a bs ih =>
    intro b hb
    simp only [batch_sum] at h
    rcases List.mem_cons.mp hb with rfl | hb
    · omega
    · exact ih (by omega) b hb

theorem hits_sum_append (a b : List Notification) :
    hits_sum (a ++ b) = hits_sum a + hits_sum b := by
  induction a with
  | nil => simp [hits_sum]
  | cons e es ih =>
    have ih' : hits_sum (es.append b) = hits_sum es + hits_sum b := ih
    cases e <;> simp only [List.cons_append, hits_sum] <;> omega

theorem started_live (terms : List String) : Live (started terms) :=
  ⟨rfl, rfl, Or.inl rfl⟩

theorem finish_state (o : Outcome) :
    (finish o).state.total_hits = o.state.total_hits ∧
    (finish o).state.query = o.state.query ∧
    (finish o).state.requests = o.state.requests := by
  cases o <;> exact ⟨rfl, rfl, rfl⟩

theorem entries_from_length (l : List BeagleHit) :
    ∀ s : Nat, (entries_from s l).length = 3 * l.length := by
  induction l with
  | nil => intro s; rfl
  | cons hit l ih =>
    intro s
    simp only [entries_from, entry_text, List.length_append, List.length_cons,
      List.length_nil, ih]
    omega

theorem entries_from_at (l : List BeagleHit) :
    ∀ (s k : Nat) (hk : k < l.length),
      ((entries_from s l).drop (3 * k)).take 3 = entry_text (s + k) l[k] := by
  induction l with
  | nil => intro s k hk; cases hk
  | cons hit l ih =>
    intro s k hk
    cases k with
    | zero => simp [entries_from, entry_text]
    | succ k =>
      have h3 : 3 * (k + 1) = 3 * k + 3 := by omega
      have hk1 : k < l.length := by simpa using hk
      have := ih (s + 1) k hk1
      simp only [entries_from, entry_text, h3, List.cons_append, List.nil_append,
        List.drop_succ_cons, List.getElem_cons_succ]
      rw [this]
      have hs : s + 1 + k = s + (k + 1) := by omega
      rw [hs]
      rfl

theorem runs_of_batches (bs : List (List BeagleHit)) :
    runs_of .hits_added_cb (batches_fired bs ++ [(.finished_cb, .Finished)]) = bs.length ∧
    runs_of .finished_cb (batches_fired bs ++ [(.finished_cb, .Finished)]) = 1 := by
  induction bs with
  | nil => exact ⟨rfl, rfl⟩
  | cons b bs ih =>
    obtain ⟨h1, h2⟩ := ih
    simp only [runs_of, batches_fired] at h1 h2 ⊢
    simp only [List.map_cons, List.cons_append, List.length_cons]
    rw [List.filter_cons_of_pos (by simp), List.filter_cons_of_neg (by simp)]
    exact ⟨by rw [List.length_cons, h1], h2⟩

theorem loop_groups (pre : List (List Notification)) :
    ∀ (bs : List (List BeagleHit)) (cur rest : List Notification)
      (later : List (List Notification)) (st : State),
      Live st → pre.flatten ++ cur = bs.map .HitsAdded →
      main_loop_iterate (pre ++ (cur ++ rest) :: later) st =
        if (dispatch rest (dispatch (bs.map .HitsAdded) st)).is_running then
          main_loop_iterate later (dispatch rest (dispatch (bs.map .HitsAdded) st))
        else .returned 0 (dispatch rest (dispatch (bs.map .HitsAdded) st)) := by
  induction pre with
  | nil =>
    intro bs cur rest later st _ hg
    simp only [List.flatten_nil, List.nil_append] at hg
    subst hg
    rw [List.nil_append, main_loop_iterate, dispatch_hits_append]
  | cons ready pre ih =>
    intro bs cur rest later st h hg
    simp only [List.flatten_cons, List.append_assoc] at hg
    obtain ⟨b1, b2, hbs, h1, h2⟩ := List.map_eq_append_iff.mp hg.symm
    subst hbs
    have hl := (dispatch_hits b1 st h).1
    rw [List.cons_append, main_loop_iterate, ← h1]
    simp only [hl.2.1, if_true]
    rw [ih b2 cur rest later _ hl h2.symm, List.map_append, dispatch_hits_append]

theorem loop_not_exited (its : List (List Notification)) :
    ∀ (st : State) (status : Int) (x : State),
      main_loop_iterate its st ≠ .exited status x := by
  induction its with
  | nil => intro st status x h; cases h
  | cons ready later ih =>
    intro st status x h
    rw [main_loop_iterate] at h
    split_ifs at h
    exact ih _ _ _ h

/-! ## Lemmas: what holds for every sequence of notifications -/

theorem routeFrame_quiet (base : State) (e : Notification) (st : State)
    (h : Quiet base st) : Quiet base (routeFrame e st) := by
  obtain ⟨hh, hq, hr, hc⟩ := h
  rcases hs : st.session with _ | s
  · rcases hc with ⟨-, hn, -⟩ | ⟨-, hf, -⟩
    · exact absurd hs hn
    · rw [hs] at hf
      cases hf
  · cases s <;> cases e <;>
      simp_all [Quiet, routeFrame, broadcastFault, Session.terminal, g_signal_emit,
        main_handlers, emit_handlers, invoke, finished_cb, g_main_loop_quit,
        hits_added_cb_eq]

theorem dispatch_quiet (base : State) (ready : List Notification) :
    ∀ st : State, Quiet base st → Quiet base (dispatch ready st) := by
  induction ready with
  | nil => intro st h; exact h
  | cons e es ih =>
    intro st h
    cases e with
    | ConnectionLost =>
      obtain ⟨hh, hq, hr, hc⟩ := routeFrame_quiet base .ConnectionLost st h
      simp only [dispatch]
      refine ⟨hh, hq, hr, ?_⟩
      rcases hc with ⟨h1, h2, h3⟩ | ⟨h1, h2, -⟩
      · exact Or.inl ⟨h1, h2, h3⟩
      · exact Or.inr ⟨h1, h2, rfl⟩
    | HitsAdded hits => exact ih _ (routeFrame_quiet base _ st h)
    | Finished => exact ih _ (routeFrame_quiet base _ st h)
    | Cancelled => exact ih _ (routeFrame_quiet base _ st h)
    | Error cause => exact ih _ (routeFrame_quiet base _ st h)

theorem loop_quiet (base : State) (its : List (List Notification)) :
    ∀ st : State, Quiet base st → st.is_running = true →
      (main_loop_iterate its st).state.query = base.query ∧
      (main_loop_iterate its st).state.requests = base.requests ∧
      ((∃ s, main_loop_iterate its st = .blocked s ∧ s.calls = base.calls) ∨
       (∃ s, main_loop_iterate its st = .returned 0 s ∧
          (s.calls = base.calls ∨ s.calls = base.calls ++ [Call.g_main_loop_quit]))) := by
  induction its with
  | nil =>
    intro st h hr
    obtain ⟨-, hq, hrq, hc⟩ := h
    refine ⟨hq, hrq, Or.inl ⟨st, rfl, ?_⟩⟩
    rcases hc with ⟨h1, -, -⟩ | ⟨-, -, h3⟩
    · exact h1
    · rw [hr] at h3
      cases h3
  | cons ready later ih =>
    intro st h _
    have hq := dispatch_quiet base ready st h
    rw [main_loop_iterate]
    by_cases hrun : (dispatch ready st).is_running = true
    · simp only [hrun, if_true]
      exact ih _ hq hrun
    · simp only [hrun]
      obtain ⟨-, hq1, hq2, hc⟩ := hq
      refine ⟨hq1, hq2, Or.inr ⟨_, rfl, ?_⟩⟩
      rcases hc with ⟨h1, -, -⟩ | ⟨h1, -, -⟩
      · exact Or.inl h1
      · exact Or.inr h1

theorem routeFrame_total (e : Notification) (st : State)
    (hh : st.handlers = main_handlers) (h0 : 0 ≤ st.total_hits)
    (hb : st.total_hits + hits_sum [e] < 2 ^ 31) :
    (routeFrame e st).handlers = main_handlers ∧
      st.total_hits ≤ (routeFrame e st).total_hits ∧
      (routeFrame e st).total_hits ≤ st.total_hits + hits_sum [e] := by
  have hrange : ∀ n : Nat, st.total_hits + n < 2 ^ 31 →
      toGint (st.total_hits + toGint (toGuint n)) = st.total_hits + n := by
    intro n hn
    have hn' : n < 2 ^ 31 := by omega
    rw [toGuint_of_lt _ hn', toGint_nat _ hn']
    exact toGint_of_range _ (by omega) (by omega)
  rcases hs : st.session with _ | s
  · cases e <;>
      simp_all [routeFrame, broadcastFault, hits_sum]
  · cases s <;> cases e <;>
      simp_all [routeFrame, broadcastFault, Session.terminal, g_signal_emit,
        main_handlers, emit_handlers, invoke, finished_cb, g_main_loop_quit,
        hits_added_cb_eq, hits_sum]

theorem hits_sum_cons (e : Notification) (es : List Notification) :
    hits_sum (e :: es) = hits_sum [e] + hits_sum es :=
  hits_sum_append [e] es

theorem dispatch_total (ready : List Notification) :
    ∀ st : State, st.handlers = main_handlers → 0 ≤ st.total_hits →
      st.total_hits + hits_sum ready < 2 ^ 31 →
      (dispatch ready st).handlers = main_handlers ∧
        st.total_hits ≤ (dispatch ready st).total_hits ∧
        (dispatch ready st).total_hits ≤ st.total_hits + hits_sum ready := by
  induction ready with
  | nil =>
    intro st hh _ _
    simp [dispatch, hh, hits_sum]
  | cons e es ih =>
    intro st hh h0 hb
    rw [hits_sum_cons] at hb ⊢
    obtain ⟨h1, h2, h3⟩ := routeFrame_total e st hh h0 (by omega)
    have hstep : (dispatch es (routeFrame e st)).handlers = main_handlers ∧
        (routeFrame e st).total_hits ≤ (dispatch es (routeFrame e st)).total_hits ∧
        (dispatch es (routeFrame e st)).total_hits ≤
          (routeFrame e st).total_hits + hits_sum es := ih _ h1 (by omega) (by omega)
    cases e with
    | ConnectionLost =>
      simp only [dispatch]
      have hr : routeFrame .ConnectionLost st = broadcastFault st := rfl
      rw [hr] at h1 h2 h3
      exact ⟨h1, h2, by omega⟩
    | HitsAdded hits =>
      simp only [dispatch]
      exact ⟨hstep.1, by omega, by omega⟩
    | Finished =>
      simp only [dispatch]
      exact ⟨hstep.1, by omega, by omega⟩
    | Cancelled =>
      simp only [dispatch]
      exact ⟨hstep.1, by omega, by omega⟩
    | Error cause =>
      simp only [dispatch]
      exact ⟨hstep.1, by omega, by omega⟩

theorem loop_total_bounds (its : List (List Notification)) :
    ∀ st : State, st.handlers = main_handlers → 0 ≤ st.total_hits →
      st.total_hits + hits_sum its.flatten < 2 ^ 31 →
      st.total_hits ≤ (main_loop_iterate its st).state.total_hits ∧
      (main_loop_iterate its st).state.total_hits ≤ st.total_hits + hits_sum its.flatten := by
  induction its with
  | nil =>
    intro st _ _ _
    simp [main_loop_iterate, Outcome.state, hits_sum]
  | cons ready later ih =>
    intro st hh h0 hb
    rw [List.flatten_cons, hits_sum_append] at hb ⊢
    obtain ⟨h1, h2, h3⟩ := dispatch_total ready st hh h0 (by omega)
    rw [main_loop_iterate]
    by_cases hrun : (dispatch ready st).is_running = true
    · simp only [hrun, if_true]
      have := ih _ h1 (by omega) (by omega)
      omega
    · rw [if_neg hrun]
      exact ⟨h2, by simp only [Outcome.state]; omega⟩

theorem loop_total_mono (pre suf : List (List Notification)) :
    ∀ st : State, st.handlers = main_handlers → 0 ≤ st.total_hits →
      st.total_hits + hits_sum (pre ++ suf).flatten < 2 ^ 31 →
      (main_loop_iterate pre st).state.total_hits ≤
        (main_loop_iterate (pre ++ suf) st).state.total_hits := by
  induction pre with
  | nil =>
    intro st hh h0 hb
    simp only [List.nil_append] at hb ⊢
    simpa [main_loop_iterate, Outcome.state] using (loop_total_bounds suf st hh h0 hb).1
  | cons ready later ih =>
    intro st hh h0 hb
    rw [List.cons_append, List.flatten_cons, hits_sum_append] at hb
    obtain ⟨h1, h2, h3⟩ := dispatch_total ready st hh h0 (by omega)
    rw [List.cons_append, main_loop_iterate, main_loop_iterate]
    by_cases hrun : (dispatch ready st).is_running = true
    · simp only [hrun, if_true]
      exact ih _ h1 (by omega) (by omega)
    · rw [if_neg hrun, if_neg hrun]

theorem started_quiet (terms : List String) : Quiet (started terms) (started terms) :=
  ⟨rfl, rfl, rfl, Or.inl ⟨rfl, by simp [started], by simp [started]⟩⟩

/-! ## Lemmas: runs of `main` that end with one terminal event -/

theorem run_finished (argv : List String) (bs extra : List (List BeagleHit))
    (pre : List (List Notification)) (cur : List Notification)
    (later : List (List Notification)) (hargc : 2 ≤ argv.length)
    (hgroup : pre.flatten ++ cur = bs.map .HitsAdded) :
    main argv (pre ++ (cur ++ .Finished :: extra.map .HitsAdded) :: later) =
      .returned 0
        { dispatch (bs.map .HitsAdded) (started argv.tail) with
          session := some .Finished,
          fired := (dispatch (bs.map .HitsAdded) (started argv.tail)).fired ++
            [(.finished_cb, .Finished)],
          is_running := false,
          calls := (dispatch (bs.map .HitsAdded) (started argv.tail)).calls ++
            [Call.g_main_loop_quit] ++ teardown_calls,
          discarded := (dispatch (bs.map .HitsAdded) (started argv.tail)).discarded +
            extra.length,
          out := (dispatch (bs.map .HitsAdded) (started argv.tail)).out ++
            [total_line (dispatch (bs.map .HitsAdded) (started argv.tail)).total_hits] } := by
  have hl := (dispatch_hits bs (started argv.tail) (started_live _)).1
  rw [main_eq argv _ hargc,
    loop_groups pre bs cur _ later (started argv.tail) (started_live _) hgroup,
    dispatch_finished extra _ hl]
  rfl

theorem Registry.fresh_step (op : RegistryOp) (ids : List Nat) (r : Registry)
    (h : Registry.Fresh (ids, r)) :
    Registry.Fresh (Registry.run [op] (ids, r)) := by
  obtain ⟨h1, h2, h3, h4⟩ := h
  simp only [] at h1 h2 h3 h4
  cases op with
  | register =>
    simp only [Registry.run, Registry.Fresh, Registry.register, Registry.ids,
      List.map_append, List.map_cons, List.map_nil, List.mem_append, List.mem_singleton]
    refine ⟨?_, ?_, ?_, ?_⟩
    · rintro id (hid | rfl)
      · exact Nat.lt_succ_of_lt (h1 id hid)
      · exact Nat.lt_succ_self _
    · rintro id (hid | rfl)
      · exact Nat.lt_succ_of_lt (h2 id hid)
      · exact Nat.lt_succ_self _
    · refine List.Nodup.append h3 (List.nodup_singleton _) ?_
      intro a ha hb
      rw [List.mem_singleton] at hb
      subst hb
      exact absurd (h1 _ ha) (Nat.lt_irrefl _)
    · refine List.Nodup.append h4 (List.nodup_singleton _) ?_
      intro a ha hb
      rw [List.mem_singleton] at hb
      subst hb
      exact absurd (h2 _ ha) (Nat.lt_irrefl _)
  | cancel id =>
    simp only [Registry.run, Registry.Fresh, Registry.cancel, Registry.ids]
    refine ⟨h1, ?_, h3, ?_⟩
    · intro a ha
      exact h2 a (List.Sublist.subset (List.Sublist.map _ (List.filter_sublist _)) ha)
    · exact List.Nodup.sublist (List.Sublist.map _ (List.filter_sublist _)) h4
  | routeFrame id e =>
    simp only [Registry.run, Registry.Fresh, Registry.routeFrame]
    split_ifs
    · refine ⟨h1, ?_, h3, ?_⟩
      · intro a ha
        exact h2 a (List.Sublist.subset (List.Sublist.map _ (List.filter_sublist _)) ha)
      · exact List.Nodup.sublist (List.Sublist.map _ (List.filter_sublist _)) h4
    · have hk : (List.map (fun p : Nat × Session =>
            if p.1 = id then (p.1, Session.Streaming) else p) r.sessions).map Prod.fst =
          r.sessions.map Prod.fst := by
        rw [List.map_map]
        apply List.map_congr_left
        intro p _
        simp only [Function.comp]
        split_ifs <;> rfl
      simp only [Registry.ids, hk]
      exact ⟨h1, h2, h3, h4⟩
    · exact ⟨h1, h2, h3, h4⟩
  | broadcastFault =>
    simp only [Registry.run, Registry.Fresh, Registry.broadcastFault, Registry.ids,
      List.map_nil]
    exact ⟨h1, (by intro a ha; cases ha), h3, List.nodup_nil⟩

theorem Registry.fresh_run (ops : List RegistryOp) :
    ∀ acc : List Nat × Registry, Registry.Fresh acc → Registry.Fresh (Registry.run ops acc) := by
  induction ops with
  | nil => intro acc h; exact h
  | cons op ops ih =>
    rintro ⟨ids, r⟩ h
    have hs := Registry.fresh_step op ids r h
    cases op <;> exact ih _ hs

theorem Registry.fresh_empty : Registry.Fresh ([], Registry.empty) :=
  ⟨(by intro a ha; cases ha), (by intro a ha; cases ha), List.nodup_nil, List.nodup_nil⟩

/-! ## The claims -/

/-- C1: when the daemon sends the hit batches `bs` in order and then Finished
(`pre` are the loop iterations before the one that reads Finished, `cur` what that
iteration reads before it, in any grouping), and the batch sizes sum to less than
2^31, every run of `hits_added_cb` on a batch writes the block of that batch, whose
first line is "Found hits (n):" with n the length of the batch; `main` returns with
the blocks of all batches in order followed by the closing line, and the total in
that line, the value of `total_hits`, is the sum of the batch lengths. -/
theorem C1_batch_counts_and_total (argv : List String) (bs : List (List BeagleHit))
    (pre : List (List Notification)) (cur : List Notification)
    (hargc : 2 ≤ argv.length) (hfit : batch_sum bs < 2 ^ 31)
    (hgroup : pre.flatten ++ cur = bs.map .HitsAdded) :
    (∀ b ∈ bs, ∀ st : State,
      (hits_added_cb (.HitsAdded b) st).out = st.out ++ batch_text b ∧
      (batch_text b).head? = some ("Found hits (" ++ toString b.length ++ "):\n")) ∧
    ∃ st, main argv (pre ++ [cur ++ [.Finished]]) = .returned 0 st ∧
      st.fired = batches_fired bs ++ [(.finished_cb, .Finished)] ∧
      st.total_hits = batch_sum bs ∧
      st.out = batches_text bs ++ [total_line (batch_sum bs)] := by
  refine ⟨?_, ?_⟩
  · intro b hb st
    rw [hits_added_cb_small b st (batch_sum_bound bs _ hfit b hb)]
    exact ⟨rfl, rfl⟩
  · obtain ⟨-, hf, -, -, ht⟩ := dispatch_hits bs (started argv.tail) (started_live _)
    obtain ⟨ht1, ho1⟩ := ht (le_refl _) (by simp only [started]; omega)
    have ht2 : (dispatch (bs.map .HitsAdded) (started argv.tail)).total_hits =
        batch_sum bs := by
      rw [ht1]
      simp [started]
    refine ⟨_, run_finished argv bs [] pre cur [] hargc hgroup, ?_, ht2, ?_⟩
    · show (dispatch (bs.map .HitsAdded) (started argv.tail)).fired ++ _ = _
      rw [hf]
      simp [started]
    · show (dispatch (bs.map .HitsAdded) (started argv.tail)).out ++ _ = _
      rw [ho1, ht2]
      simp [started]

/-- Witness of C1: batches of 2 hits and of 1 hit, read in two iterations, give the
count lines 2 and 1 and a final total of 3. -/
theorem C1_batch_counts_and_total_witness :
    2 ≤ ["beagle-search", "foo", "bar"].length ∧
    batch_sum [[sample_file_hit, sample_feed_hit], [sample_other_hit]] < 2 ^ 31 ∧
    [[Notification.HitsAdded [sample_file_hit, sample_feed_hit]]].flatten ++
        [Notification.HitsAdded [sample_other_hit]] =
      [[sample_file_hit, sample_feed_hit], [sample_other_hit]].map .HitsAdded ∧
    (batch_text [sample_file_hit, sample_feed_hit]).head? = some "Found hits (2):\n" ∧
    (batch_text [sample_other_hit]).head? = some "Found hits (1):\n" ∧
    ∃ st, main ["beagle-search", "foo", "bar"]
        ([[.HitsAdded [sample_file_hit, sample_feed_hit]]] ++
          [[.HitsAdded [sample_other_hit]] ++ [.Finished]]) = .returned 0 st ∧
      st.total_hits = 3 ∧ st.out.getLast? = some "Found a total of 3 hits\n" := by
  refine ⟨by decide, by decide, rfl, rfl, rfl, ?_⟩
  obtain ⟨-, st, hrun, -, ht, ho⟩ :=
    C1_batch_counts_and_total ["beagle-search", "foo", "bar"]
      [[sample_file_hit, sample_feed_hit], [sample_other_hit]]
      [[.HitsAdded [sample_file_hit, sample_feed_hit]]] [.HitsAdded [sample_other_hit]]
      (by decide) (by decide) rfl
  refine ⟨st, hrun, ht, ?_⟩
  rw [ho]
  rfl

/-- C2: for N hit batches followed by Finished, in any grouping into loop
iterations (`pre` the iterations before the one that reads Finished, `cur` what that
iteration reads before it), the callbacks that run during `main` are exactly N runs
of `hits_added_cb`, the k-th on the k-th notification, followed by one run of
`finished_cb`; nothing else runs. -/
theorem C2_hits_before_finished (argv : List String) (bs : List (List BeagleHit))
    (pre : List (List Notification)) (cur : List Notification)
    (hargc : 2 ≤ argv.length) (hgroup : pre.flatten ++ cur = bs.map .HitsAdded) :
    ∃ st, main argv (pre ++ [cur ++ [.Finished]]) = .returned 0 st ∧
      st.fired = batches_fired bs ++ [(.finished_cb, .Finished)] ∧
      runs_of .hits_added_cb st.fired = bs.length ∧
      runs_of .finished_cb st.fired = 1 := by
  obtain ⟨-, hf, -, -, -⟩ := dispatch_hits bs (started argv.tail) (started_live _)
  have hf' : (dispatch (bs.map .HitsAdded) (started argv.tail)).fired ++
      [(Callback.finished_cb, Notification.Finished)] =
      batches_fired bs ++ [(.finished_cb, .Finished)] := by
    rw [hf]
    simp [started]
  refine ⟨_, run_finished argv bs [] pre cur [] hargc hgroup, hf', ?_, ?_⟩
  · show runs_of .hits_added_cb ((dispatch (bs.map .HitsAdded) (started argv.tail)).fired ++
      [(Callback.finished_cb, Notification.Finished)]) = bs.length
    rw [hf']
    exact (runs_of_batches bs).1
  · show runs_of .finished_cb ((dispatch (bs.map .HitsAdded) (started argv.tail)).fired ++
      [(Callback.finished_cb, Notification.Finished)]) = 1
    rw [hf']
    exact (runs_of_batches bs).2

/-- Witness of C2: two batches, then Finished, each in its own iteration. -/
theorem C2_hits_before_finished_witness :
    2 ≤ ["beagle-search", "foo"].length ∧
    [[Notification.HitsAdded [sample_file_hit]], [Notification.HitsAdded []]].flatten ++ [] =
      [[sample_file_hit], []].map .HitsAdded ∧
    ∃ st, main ["beagle-search", "foo"]
        ([[.HitsAdded [sample_file_hit]], [.HitsAdded []]] ++ [[] ++ [.Finished]]) =
        .returned 0 st ∧
      st.fired = [(.hits_added_cb, .HitsAdded [sample_file_hit]),
                  (.hits_added_cb, .HitsAdded []), (.finished_cb, .Finished)] := by
  refine ⟨by decide, rfl, ?_⟩
  obtain ⟨st, hrun, hf, -, -⟩ :=
    C2_hits_before_finished ["beagle-search", "foo"] [[sample_file_hit], []]
      [[.HitsAdded [sample_file_hit]], [.HitsAdded []]] [] (by decide) rfl
  exact ⟨st, hrun, hf⟩

/-- C3: hit batches `extra` that arrive after Finished run no callback.  Those read
in the same loop iteration as Finished are routed to the finished session, which
drops each of them (the drop counter ends at their number); the iterations `later`
are never read, because `finished_cb` has quit the loop.  The run of `main` is the
run without anything after Finished, except for the drop counter: the callbacks run
are those of the batches `bs` before Finished and the one `finished_cb`, and the
output is the blocks of `bs` and the closing line with their total. -/
theorem C3_nothing_after_finished (argv : List String) (bs extra : List (List BeagleHit))
    (pre : List (List Notification)) (cur : List Notification)
    (later : List (List Notification))
    (hargc : 2 ≤ argv.length) (hgroup : pre.flatten ++ cur = bs.map .HitsAdded) :
    ∃ st, main argv (pre ++ [cur ++ [.Finished]]) = .returned 0 st ∧
      main argv (pre ++ (cur ++ .Finished :: extra.map .HitsAdded) :: later) =
        .returned 0 { st with discarded := extra.length } ∧
      st.discarded = 0 ∧
      st.session = some .Finished ∧
      st.fired = batches_fired bs ++ [(.finished_cb, .Finished)] ∧
      runs_of .hits_added_cb st.fired = bs.length ∧
      (batch_sum bs < 2 ^ 31 →
        st.total_hits = batch_sum bs ∧
        st.out = batches_text bs ++ [total_line (batch_sum bs)]) := by
  obtain ⟨-, hf, -, hd, ht⟩ := dispatch_hits bs (started argv.tail) (started_live _)
  have hf' : (dispatch (bs.map .HitsAdded) (started argv.tail)).fired ++
      [(Callback.finished_cb, Notification.Finished)] =
      batches_fired bs ++ [(.finished_cb, .Finished)] := by
    rw [hf]
    simp [started]
  have hd0 : (dispatch (bs.map .HitsAdded) (started argv.tail)).discarded = 0 := by
    rw [hd]
    rfl
  refine ⟨_, run_finished argv bs [] pre cur [] hargc hgroup, ?_, ?_, rfl, hf', ?_, ?_⟩
  · rw [run_finished argv bs extra pre cur later hargc hgroup, hd0]
    simp
  · show (dispatch (bs.map .HitsAdded) (started argv.tail)).discarded + 0 = 0
    rw [hd0]
  · show runs_of .hits_added_cb ((dispatch (bs.map .HitsAdded) (started argv.tail)).fired ++
      [(Callback.finished_cb, Notification.Finished)]) = bs.length
    rw [hf']
    exact (runs_of_batches bs).1
  · intro hfit
    obtain ⟨ht1, ho1⟩ := ht (le_refl _) (by simp only [started]; omega)
    have ht2 : (dispatch (bs.map .HitsAdded) (started argv.tail)).total_hits =
        batch_sum bs := by
      rw [ht1]
      simp [started]
    refine ⟨ht2, ?_⟩
    show (dispatch (bs.map .HitsAdded) (started argv.tail)).out ++ _ = _
    rw [ho1, ht2]
    simp [started]

/-- Witness of C3: three stray hit batches after Finished, two in the iteration of
Finished and one in a later iteration, run no callback; the two that are read are
dropped. -/
theorem C3_nothing_after_finished_witness :
    2 ≤ ["beagle-search", "foo"].length ∧
    ([] : List (List Notification)).flatten ++ [Notification.HitsAdded [sample_file_hit]] =
      [[sample_file_hit]].map .HitsAdded ∧
    ∃ st, main ["beagle-search", "foo"]
        ([] ++ ([.HitsAdded [sample_file_hit]] ++ .Finished ::
            [[sample_feed_hit], [sample_other_hit]].map .HitsAdded) ::
          [[.HitsAdded [sample_file_hit]]]) = .returned 0 st ∧
      st.fired = [(.hits_added_cb, .HitsAdded [sample_file_hit]), (.finished_cb, .Finished)] ∧
      runs_of .hits_added_cb st.fired = 1 ∧
      st.discarded = 2 ∧
      st.out.getLast? = some "Found a total of 1 hits\n" := by
  refine ⟨by decide, rfl, ?_⟩
  obtain ⟨st, -, hrun, -, -, hf, hn, ho⟩ :=
    C3_nothing_after_finished ["beagle-search", "foo"] [[sample_file_hit]]
      [[sample_feed_hit], [sample_other_hit]] [] [.HitsAdded [sample_file_hit]]
      [[.HitsAdded [sample_file_hit]]] (by decide) rfl
  refine ⟨_, hrun, hf, hn, rfl, ?_⟩
  show st.out.getLast? = _
  rw [(ho (by decide)).2]
  rfl

/-- C5: with `argc >= 2` the query holds exactly the terms `argv[1..argc-1]` in
order, there are `argc - 1` of them, one request was sent and it carries those
terms, and the library calls are: the four set-up calls, one `beagle_query_add_text`
per term in order, the two `g_signal_connect`, the one
`beagle_client_send_request_async`, `g_main_loop_run`, and after that either
nothing (the loop still runs), or the three releases (the loop was left without
`finished_cb`), or `g_main_loop_quit` and the three releases. -/
theorem C5_query_terms_and_single_send (argv : List String)
    (daemon : List (List Notification)) (hargc : 2 ≤ argv.length) :
    (main argv daemon).state.query = argv.tail ∧
    argv.tail.length = argv.length - 1 ∧
    (main argv daemon).state.requests = [argv.tail] ∧
    ∃ rest, (main argv daemon).state.calls =
        setup_calls argv.tail ++ Call.g_main_loop_run :: rest ∧
      (rest = [] ∨ rest = teardown_calls ∨ rest = Call.g_main_loop_quit :: teardown_calls) := by
  obtain ⟨hq, hr, hc⟩ :=
    loop_quiet (started argv.tail) daemon (started argv.tail) (started_quiet _) rfl
  obtain ⟨-, fq, fr⟩ := finish_state (main_loop_iterate daemon (started argv.tail))
  rw [main_eq argv _ hargc]
  refine ⟨by rw [fq, hq]; rfl, by simp, by rw [fr, hr]; rfl, ?_⟩
  rcases hc with ⟨st', hrun, hcalls⟩ | ⟨st', hrun, hcalls | hcalls⟩
  · refine ⟨[], ?_, Or.inl rfl⟩
    rw [hrun]
    simp only [finish, Outcome.state, hcalls, started]
  · refine ⟨teardown_calls, ?_, Or.inr (Or.inl rfl)⟩
    rw [hrun]
    simp only [finish, Outcome.state, hcalls, started]
    simp
  · refine ⟨Call.g_main_loop_quit :: teardown_calls, ?_, Or.inr (Or.inr rfl)⟩
    rw [hrun]
    simp only [finish, Outcome.state, hcalls, started]
    simp

/-- Witness of C5: the terms foo and bar. -/
theorem C5_query_terms_and_single_send_witness :
    2 ≤ ["beagle-search", "foo", "bar"].length ∧
    (main ["beagle-search", "foo", "bar"] [[.Finished]]).state.query = ["foo", "bar"] ∧
    (main ["beagle-search", "foo", "bar"] [[.Finished]]).state.requests = [["foo", "bar"]] := by
  obtain ⟨hq, -, hr, -⟩ :=
    C5_query_terms_and_single_send ["beagle-search", "foo", "bar"] [[.Finished]] (by decide)
  exact ⟨by decide, hq, hr⟩

/-- C6: `print_hit` does what exactly one of the three printers does, chosen by the
type tag: for type "FeedItem" it writes "Blog: ", the dc:title property and a
newline; for type "File" it writes "File: ", the URI and a newline; for every other
type it writes the URI and the source-object name in parentheses.  In each case one
text is appended to the output and nothing else changes. -/
theorem C6_print_hit_by_type (hit : BeagleHit) (st : State) :
    (hit.type = "FeedItem" →
      print_hit hit st = print_feed_item_hit hit st ∧
      print_hit hit st = { st with out := st.out ++
        ["Blog: " ++ fmt_s (beagle_hit_get_property hit "dc:title") ++ "\n"] }) ∧
    (hit.type = "File" →
      print_hit hit st = print_file_hit hit st ∧
      print_hit hit st = { st with out := st.out ++ ["File: " ++ hit.uri ++ "\n"] }) ∧
    (hit.type ≠ "FeedItem" → hit.type ≠ "File" →
      print_hit hit st = print_other_hit hit st ∧
      print_hit hit st = { st with out := st.out ++
        [hit.uri ++ " (" ++ hit.source_object_name ++ ")"] }) := by
  refine ⟨fun h => ?_, fun h => ?_, fun h1 h2 => ?_⟩
  · refine ⟨by simp [print_hit, beagle_hit_get_type, h], ?_⟩
    rw [print_hit_eq]
    simp [hit_text, h]
  · have hne : hit.type ≠ "FeedItem" := by rw [h]; decide
    refine ⟨by simp [print_hit, beagle_hit_get_type, h], ?_⟩
    rw [print_hit_eq]
    simp [hit_text, h]
  · refine ⟨by simp [print_hit, beagle_hit_get_type, h1, h2], ?_⟩
    rw [print_hit_eq]
    simp [hit_text, h1, h2]

/-- Witness of C6: a feed item, a file, and a hit of type "file" in lower case, which
is printed by the third printer. -/
theorem C6_print_hit_by_type_witness :
    sample_feed_hit.type = "FeedItem" ∧ sample_file_hit.type = "File" ∧
    sample_other_hit.type ≠ "FeedItem" ∧ sample_other_hit.type ≠ "File" ∧
    (print_hit sample_feed_hit State.init).out = ["Blog: Hello\n"] ∧
    (print_hit sample_file_hit State.init).out = ["File: file:///home/u/notes.txt\n"] ∧
    (print_hit sample_other_hit State.init).out = ["mailto:a (Mail)"] := by
  refine ⟨rfl, rfl, by decide, by decide, ?_, ?_, ?_⟩
  · rw [((C6_print_hit_by_type sample_feed_hit State.init).1 rfl).2]
    rfl
  · rw [((C6_print_hit_by_type sample_file_hit State.init).2.1 rfl).2]
    rfl
  · rw [((C6_print_hit_by_type sample_other_hit State.init).2.2 (by decide) (by decide)).2]
    rfl

/-- C7: for a batch of n hits (n below 2^31, so that the `gint` counter holds it)
`hits_added_cb` writes the count line, a rule, then exactly n entries of three texts
each, and a closing rule; the k-th entry is what `g_print` of "[k] ", `print_hit` of
the k-th hit of the list and `g_print` of a newline write, for k = 1..n, so the entries follow the list order and a hit
that occurs several times is written each time; `total_hits` grows by n. -/
theorem C7_one_entry_per_hit (hits : List BeagleHit) (st : State)
    (hlen : hits.length < 2 ^ 31) :
    (hits_added_cb (.HitsAdded hits) st).out =
      st.out ++ (["Found hits (" ++ toString hits.length ++ "):\n",
                  "-------------------------------------------\n"] ++
                 entries_from 1 hits ++
                 ["-------------------------------------------\n\n\n"]) ∧
    (entries_from 1 hits).length = 3 * hits.length ∧
    (∀ (k : Nat) (hk : k < hits.length),
      ((entries_from 1 hits).drop (3 * k)).take 3 =
        (g_print "\n" (print_hit hits[k]
          (g_print ("[" ++ toString (k + 1) ++ "] ") State.init))).out) ∧
    (hits_added_cb (.HitsAdded hits) st).total_hits = toGint (st.total_hits + hits.length) := by
  refine ⟨?_, entries_from_length hits 1, ?_, ?_⟩
  · rw [hits_added_cb_small hits st hlen]
    rfl
  · intro k hk
    rw [entries_from_at hits 1 k hk, print_hit_eq, Nat.add_comm 1 k]
    rfl
  · rw [hits_added_cb_small hits st hlen]

/-- Witness of C7: a batch in which one hit occurs twice gives three entries, the
repeated hit under "[1] " and under "[3] ". -/
theorem C7_one_entry_per_hit_witness :
    [sample_file_hit, sample_feed_hit, sample_file_hit].length < 2 ^ 31 ∧
    (hits_added_cb (.HitsAdded [sample_file_hit, sample_feed_hit, sample_file_hit])
        State.init).out =
      ["Found hits (3):\n", "-------------------------------------------\n",
       "[1] ", "File: file:///home/u/notes.txt\n", "\n",
       "[2] ", "Blog: Hello\n", "\n",
       "[3] ", "File: file:///home/u/notes.txt\n", "\n",
       "-------------------------------------------\n\n\n"] ∧
    (hits_added_cb (.HitsAdded [sample_file_hit, sample_feed_hit, sample_file_hit])
        State.init).total_hits = 3 := by
  obtain ⟨ho, -, -, ht⟩ :=
    C7_one_entry_per_hit [sample_file_hit, sample_feed_hit, sample_file_hit] State.init
      (by decide)
  refine ⟨by decide, ?_, ?_⟩
  · rw [ho]
    rfl
  · rw [ht]
    rfl

/-- C8: for every sequence of register, cancel, routeFrame and broadcastFault
operations on an empty registry, the ids returned by the register operations are
pairwise different, the ids of the open sessions are pairwise different, and the id
that a further register returns is neither the id of an open session nor an id
returned before. -/
theorem C8_register_fresh_id (ops : List RegistryOp) :
    (Registry.run ops ([], Registry.empty)).1.Nodup ∧
    (Registry.run ops ([], Registry.empty)).2.ids.Nodup ∧
    (Registry.run ops ([], Registry.empty)).2.register.1 ∉
      (Registry.run ops ([], Registry.empty)).2.ids ∧
    (Registry.run ops ([], Registry.empty)).2.register.1 ∉
      (Registry.run ops ([], Registry.empty)).1 := by
  obtain ⟨h1, h2, h3, h4⟩ := Registry.fresh_run ops _ Registry.fresh_empty
  refine ⟨h3, h4, ?_, ?_⟩
  · intro hm
    exact absurd (h2 _ hm) (Nat.lt_irrefl _)
  · intro hm
    exact absurd (h1 _ hm) (Nat.lt_irrefl _)

/-- C9: with `argc < 2`, `main` writes the usage line with `argv[0]` and leaves
through `exit (1)`, having made no library call, connected no handler, sent no
request and printed nothing else; with `argc >= 2` it never leaves through `exit`,
it returns only with status 0, and it returns 0 (after the releases and the closing
line) whenever the main loop is left, while it stays blocked when the loop is
not. -/
theorem C9_usage_or_run (argv : List String) (daemon : List (List Notification)) :
    (argv.length < 2 →
      main argv daemon = .exited 1 { State.init with
        out := ["Usage " ++ fmt_s argv.head? ++ " \"query string\"\n"] } ∧
      (main argv daemon).state.calls = [] ∧
      (main argv daemon).state.handlers = [] ∧
      (main argv daemon).state.requests = [] ∧
      (main argv daemon).state.session = none) ∧
    (2 ≤ argv.length →
      (∀ status st, main argv daemon ≠ .exited status st) ∧
      (∀ status st, main argv daemon = .returned status st → status = 0) ∧
      (∀ status st, g_main_loop_run daemon (prepared argv.tail) = .returned status st →
        main argv daemon = .returned 0
          { st with calls := st.calls ++ teardown_calls,
                    out := st.out ++ [total_line st.total_hits] }) ∧
      (∀ st, g_main_loop_run daemon (prepared argv.tail) = .blocked st →
        main argv daemon = .blocked st)) := by
  refine ⟨fun h => ?_, fun h => ?_⟩
  · rw [main_short argv daemon h]
    exact ⟨rfl, rfl, rfl, rfl, rfl⟩
  · have hg : g_main_loop_run daemon (prepared argv.tail) =
        main_loop_iterate daemon (started argv.tail) := rfl
    rw [main_eq argv daemon h, hg]
    cases hrun : main_loop_iterate daemon (started argv.tail) with
    | exited s st' => exact absurd hrun (loop_not_exited daemon _ s st')
    | returned s st' =>
      refine ⟨?_, ?_, ?_, ?_⟩
      · intro status st hc
        cases hc
      · intro status st hc
        simp only [finish] at hc
        cases hc
        rfl
      · intro status st hc
        cases hc
        rfl
      · intro st hc
        cases hc
    | blocked st' =>
      refine ⟨?_, ?_, ?_, ?_⟩
      · intro status st hc
        cases hc
      · intro status st hc
        cases hc
      · intro status st hc
        cases hc
      · intro st hc
        cases hc
        rfl

/-- Witness of C9: no argument gives the usage line and status 1; one argument and a
daemon that finishes at once gives status 0. -/
theorem C9_usage_or_run_witness :
    ["beagle-search"].length < 2 ∧ 2 ≤ ["beagle-search", "foo"].length ∧
    main ["beagle-search"] [[.Finished]] = .exited 1 { State.init with
      out := ["Usage beagle-search \"query string\"\n"] } ∧
    (∀ status st, main ["beagle-search", "foo"] [[.Finished]] = .returned status st →
      status = 0) := by
  refine ⟨by decide, by decide, ?_, ?_⟩
  · exact ((C9_usage_or_run ["beagle-search"] [[.Finished]]).1 (by decide)).1
  · exact ((C9_usage_or_run ["beagle-search", "foo"] [[.Finished]]).2 (by decide)).2.1

/-- C10: `finished_cb`, `print_hit` and the three printers leave `total_hits` as it
is; `hits_added_cb` sets it to the old value plus the batch length (as `gint`), which
without overflow is the old value plus the number of hits; while the query of
`main` is open, routing a notification other than a hit batch leaves it as it is;
and along a run of `main`, with batch
sizes that sum to less than 2^31, the value after some loop iterations is at least
0 and at most the value after more of them. -/
theorem C10_total_hits_frame :
    (∀ st : State, (finished_cb st).total_hits = st.total_hits) ∧
    (∀ (hit : BeagleHit) (st : State),
      (print_hit hit st).total_hits = st.total_hits ∧
      (print_feed_item_hit hit st).total_hits = st.total_hits ∧
      (print_file_hit hit st).total_hits = st.total_hits ∧
      (print_other_hit hit st).total_hits = st.total_hits) ∧
    (∀ (hits : List BeagleHit) (st : State),
      (hits_added_cb (.HitsAdded hits) st).total_hits =
        toGint (st.total_hits + toGint (g_slist_length hits))) ∧
    (∀ (hits : List BeagleHit) (st : State),
      0 ≤ st.total_hits → st.total_hits + hits.length < 2 ^ 31 →
      (hits_added_cb (.HitsAdded hits) st).total_hits = st.total_hits + hits.length) ∧
    (∀ (e : Notification) (st : State), Live st → (∀ hits, e ≠ .HitsAdded hits) →
      (routeFrame e st).total_hits = st.total_hits) ∧
    (∀ (argv : List String) (pre suf : List (List Notification)),
      2 ≤ argv.length → hits_sum (pre ++ suf).flatten < 2 ^ 31 →
      0 ≤ (main argv pre).state.total_hits ∧
      (main argv pre).state.total_hits ≤ (main argv (pre ++ suf)).state.total_hits) := by
  refine ⟨fun st => rfl, fun hit st => ⟨?_, rfl, rfl, rfl⟩, fun hits st => ?_,
    fun hits st h0 hb => ?_, fun e st hl he => ?_, fun argv pre suf hargc hb => ?_⟩
  · rw [print_hit_eq]
  · rw [hits_added_cb_eq]
    rfl
  · have hlen : hits.length < 2 ^ 31 := by omega
    rw [hits_added_cb_small hits st hlen]
    exact toGint_of_range _ (by omega) (by omega)
  · by_cases hf : e = .Finished
    · subst hf
      rw [routeFrame_finished st hl]
    · have ht : e.terminal = true := by
        cases e with
        | HitsAdded hits => exact absurd rfl (he hits)
        | _ => rfl
      exact (routeFrame_other e st hl ht hf).2.1
  · rw [main_eq argv _ hargc, main_eq argv _ hargc,
      (finish_state _).1, (finish_state _).1]
    have hs : hits_sum (pre ++ suf).flatten = hits_sum pre.flatten + hits_sum suf.flatten := by
      rw [List.flatten_append, hits_sum_append]
    have h0 : (started argv.tail).total_hits = 0 := rfl
    refine ⟨?_, ?_⟩
    · have := (loop_total_bounds pre (started argv.tail) rfl
        (by rw [h0]) (by rw [h0]; omega)).1
      rw [h0] at this
      exact this
    · exact loop_total_mono pre suf (started argv.tail) rfl
        (by rw [h0]) (by rw [h0]; omega)

/-- Witness of C10: the total after one batch is at most the total after two more
notifications. -/
theorem C10_total_hits_frame_witness :
    2 ≤ ["beagle-search", "foo"].length ∧
    hits_sum ([[Notification.HitsAdded [sample_file_hit]]] ++
      [[Notification.HitsAdded [sample_feed_hit, sample_other_hit],
        Notification.Finished]]).flatten < 2 ^ 31 ∧
    (main ["beagle-search", "foo"] [[.HitsAdded [sample_file_hit]]]).state.total_hits ≤
      (main ["beagle-search", "foo"] ([[.HitsAdded [sample_file_hit]]] ++
        [[.HitsAdded [sample_feed_hit, sample_other_hit], .Finished]])).state.total_hits :=
  ⟨by decide, by decide,
    (C10_total_hits_frame.2.2.2.2.2 ["beagle-search", "foo"]
      [[.HitsAdded [sample_file_hit]]]
      [[.HitsAdded [sample_feed_hit, sample_other_hit], .Finished]]
      (by decide) (by decide)).2⟩

end Beagle
